import Mathlib

/-!
Verification of the templatex-go placeholder-resolution engine.

The development embeds, at the character level (all repository inputs are
ASCII, where Go bytes and runes coincide):
  * the current engine from `src/templatex.go` (`Templatex.parseNode`,
    `Templatex.parseNodes`, `Templatex.Parse`);
  * the earlier engine from `src/unnamed/part_000`, which performs
    rune-by-rune literal matching (`Templatex.V0`);
  * the external renderer (Go `text/template.Execute`), modelled from the
    specification's collaborator contract (`Templatex.execNode`).
-/

/-- Equality of `Except` results is decidable when both components are. -/
instance {ε α : Type} [DecidableEq ε] [DecidableEq α] : DecidableEq (Except ε α) := fun
  | .error e, .error f => decidable_of_iff (e = f) (by simp)
  | .error _, .ok _ => .isFalse Except.noConfusion
  | .ok _, .error _ => .isFalse Except.noConfusion
  | .ok a, .ok b => decidable_of_iff (a = b) (by simp)

namespace Templatex

/-- Bytes of text: Go strings and `[]byte` at the character level. -/
abbrev Str := List Char

/-- Error values of the package (`src/templatex.go` lines 14-23) together
with the error classes that reach the engine from collaborators:
`shortInput` and `negativeCount` model the two failure modes of
`bufio.Reader.Discard`, `inputValidation` models the error with message
"input does not match template" raised by the literal-matching loop, and
`custom` models an arbitrary error returned by a user extractor. -/
inductive Err where
  | unsupportedNode
  | invalidNode
  | unsupportedFunction
  | inputRequired
  | shortInput
  | negativeCount
  | inputValidation
  | fieldEval
  | custom (msg : Str)
deriving DecidableEq, Repr

/-- `ErrorUnsupportedNode` of `src/templatex.go` line 16. -/
def ErrorUnsupportedNode : Err := .unsupportedNode

/-- `ErrorInvalidNode` of `src/templatex.go` line 18. -/
def ErrorInvalidNode : Err := .invalidNode

/-- `ErrorUnsupportedFunction` of `src/templatex.go` line 20. -/
def ErrorUnsupportedFunction : Err := .unsupportedFunction

/-- `ErrorInputRequired` of `src/templatex.go` line 22. -/
def ErrorInputRequired : Err := .inputRequired

/-- Modelled from the spec: `ErrorShortInput`, "Cursor asked to
discard/read more bytes than remain".  The named variable belongs to the
final version of `templatex.go`, which is absent from `src/`; the version
in `src/` propagates the underlying `bufio` error of the same class. -/
def ErrorShortInput : Err := .shortInput

/-- Modelled from the spec: `ErrorInputValidation`, the error with message
"input does not match template".  `src/unnamed/part_000` raises it as an
anonymous `errors.New` with exactly that message; the named variable
appears only in the repository's tests and in the final version of
`templatex.go`, which is absent from `src/`. -/
def ErrorInputValidation : Err := .inputValidation

/-- An argument of a command inside an action node
(`text/template/parse` argument nodes, as inspected by the engine):
an `IdentifierNode`, a `FieldNode` (dotted path), a `StringNode`
(produced by the rewrite at `src/templatex.go` lines 140-148), or a
static literal such as a `NumberNode`, carrying its source text. -/
inductive Arg where
  | identifier (ident : Str)
  | field (idents : List Str)
  | str (text : Str)
  | number (text : Str)
deriving DecidableEq, Repr

/-- A command of a pipe (`parse.CommandNode`): its ordered argument list. -/
structure Cmd where
  args : List Arg
deriving DecidableEq, Repr

/-- A pipe of an action node (`parse.PipeNode`): its command list. -/
structure Pipe where
  cmds : List Cmd
deriving DecidableEq, Repr

/-- A top-level node of the compiled template tree
(`t.tpl.Tree.Root.Nodes`).  `pos` is `node.Position()`: the byte offset of
the node in the template source (for an action node, the offset of the
content just after the left delimiter).  `other` stands for any further
node kind `text/template` can place at the root (`IfNode`, `RangeNode`,
`CommentNode`, ...), which the engine's loop does not inspect. -/
inductive Node where
  | text (pos : Nat) (text : Str)
  | action (pos : Nat) (pipe : Option Pipe)
  | other (pos : Nat)
deriving DecidableEq, Repr

/-- Source text of one argument (Go `parse.Node.String()`):
an identifier prints as itself, a field as `.a.b`, a string quoted, a
static literal as its source text. -/
def argString : Arg → Str
  | .identifier i => i
  | .field idents => idents.foldl (fun acc s => acc ++ '.' :: s) []
  | .str s => '"' :: (s ++ ['"'])
  | .number t => t

/-- Source text of a command (Go `cmd.String()`): its arguments joined
with single spaces, used at `src/templatex.go` line 121 to advance
`previousPosition` past the action's content. -/
def cmdString (c : Cmd) : Str := List.intercalate [' '] (c.args.map argString)

/-- `ParseFunc` (`src/templatex.go` line 25): an extractor that consumes a
portion of the remaining input and returns the extracted raw strings; the
`bufio.Reader` is modelled as the remaining input, returned alongside. -/
def ParseFunc := Str → Except Err (List Str × Str)

/-- `ValidateFunc` (`src/templatex.go` line 26, `any` in Go): the call
shape under which the renderer invokes a registered validator — all
arguments as strings, returning the substitute value or an error
message. -/
def ValidateFunc := List Str → Except Str Str

/-- A registry entry (`src/templatex.go` lines 28-31). -/
structure Func where
  Parse : ParseFunc
  Validate : ValidateFunc

/-- The extractor map `t.parseFuncs` (`map[string]ParseFunc`). -/
def Registry := Str → Option ParseFunc

/-- The validator functions registered on the underlying template via
`Funcs` (`src/templatex.go` lines 56-65). -/
def Validators := Str → Option ValidateFunc

/-- The context value, "an opaque structured value (map/record)", modelled
by the one capability the engine uses: rendering a dotted field path to
its text (`src/templatex.go` lines 154-162); `none` models a
field-evaluation failure of the external renderer. -/
def Ctx := List Str → Option Str

/-- `bufio.Reader.Discard` over the remaining input: a negative count is
`bufio.ErrNegativeCount`; if fewer than `n` bytes remain the call fails
(the `ErrorShortInput` class of the spec's Cursor contract, §4.1). -/
def discard (n : Int) (cur : Str) : Except Err Str :=
  if n < 0 then .error .negativeCount
  else if n.toNat ≤ cur.length then .ok (cur.drop n.toNat)
  else .error .shortInput

/-- The byte count discarded before an action node
(`src/templatex.go` lines 108-117). -/
def bytesToRead (L R previousPosition currentPosition : Nat) : Int :=
  if previousPosition = 0 then (currentPosition : Int) - L
  else ((currentPosition : Int) - previousPosition) - ((L : Int) + R)

/-- Mutable engine state during one resolution pass: the remaining input
(`t.input`) and `previousPosition` (`src/templatex.go` line 88). -/
structure St where
  input : Str
  previousPosition : Nat
deriving DecidableEq, Repr

/-- One iteration of the node loop of `src/templatex.go` lines 89-170:
non-action nodes are skipped; an action node is checked for pipe, command
and argument structure, the computed byte count is discarded from the
input, and the first argument is dispatched on its kind (identifier:
extractor lookup, invocation and argument splice; field: render the field
against the context and discard its length; anything else:
`ErrorUnsupportedNode`). -/
def parseNode (pf : Registry) (data : Ctx) (L R : Nat) (st : St) :
    Node → Except Err (Node × St)
  | .text p s => .ok (.text p s, st)
  | .other p => .ok (.other p, st)
  | .action p pipe =>
    match pipe with
    | none => .error .invalidNode
    | some pn =>
      match pn.cmds with
      | [] => .error .invalidNode
      | cmd :: restCmds =>
        match cmd.args with
        | [] => .error .invalidNode
        | cmdArg :: restArgs =>
          match discard (bytesToRead L R st.previousPosition p) st.input with
          | .error e => .error e
          | .ok cur1 =>
            let prev2 := p + (cmdString cmd).length
            match cmdArg with
            | .identifier ident =>
              match pf ident with
              | none => .error .unsupportedFunction
              | some fn =>
                match fn cur1 with
                | .error e => .error e
                | .ok (args, cur2) =>
                  .ok (.action p (some ⟨⟨cmdArg :: (args.map .str ++ restArgs)⟩ :: restCmds⟩),
                       ⟨cur2, prev2⟩)
            | .field idents =>
              match data idents with
              | none => .error .fieldEval
              | some rendered =>
                match discard (rendered.length : Nat) cur1 with
                | .error e => .error e
                | .ok cur2 => .ok (.action p (some pn), ⟨cur2, prev2⟩)
            | _ => .error .unsupportedNode

/-- The full node loop.  On an error the returned payload carries, besides
the error, the tree and reader state as they stand at that moment: the Go
code mutates `cmd.Args` and the shared `bufio.Reader` in place, so those
partial effects persist on the caller's objects even though `Parse`
returns `nil` for the `*Templatex`. -/
def parseNodes (pf : Registry) (data : Ctx) (L R : Nat) :
    List Node → St → Except (Err × List Node × St) (List Node × St)
  | [], st => .ok ([], st)
  | n :: ns, st =>
    match parseNode pf data L R st n with
    | .error e => .error (e, n :: ns, st)
    | .ok (n2, st2) =>
      match parseNodes pf data L R ns st2 with
      | .error (e, ns2, st3) => .error (e, n2 :: ns2, st3)
      | .ok (ns2, st3) => .ok (n2 :: ns2, st3)

/-- The `Templatex` struct (`src/templatex.go` lines 35-41).  The wrapped
`*template.Template` is split into the two aspects the engine uses: its
compiled root node list and its registered validator functions. -/
structure Templatex where
  nodes : List Node
  input : Option Str
  parseFuncs : Registry
  validators : Validators
  leftDelimLength : Nat
  rightDelimLength : Nat

/-- `New` (`src/templatex.go` lines 43-50): empty maps and the default
two-byte delimiter lengths. -/
def New : Templatex :=
  { nodes := []
    input := none
    parseFuncs := fun _ => none
    validators := fun _ => none
    leftDelimLength := 2
    rightDelimLength := 2 }

/-- `Funcs` (`src/templatex.go` lines 56-65): registers each entry's
`Parse` in the extractor map and its `Validate` on the template. -/
def Funcs (t : Templatex) (funcMap : List (Str × Func)) : Templatex :=
  funcMap.foldl
    (fun acc nf =>
      { acc with
        parseFuncs := fun n => if n = nf.1 then some nf.2.Parse else acc.parseFuncs n
        validators := fun n => if n = nf.1 then some nf.2.Validate else acc.validators n })
    t

/-- `Input` (`src/templatex.go` lines 67-70). -/
def Input (t : Templatex) (text : Str) : Templatex := { t with input := some text }

/-- `Delims` (`src/templatex.go` lines 72-77). -/
def Delims (t : Templatex) (left right : Str) : Templatex :=
  { t with leftDelimLength := left.length, rightDelimLength := right.length }

/-- `Parse` (`src/templatex.go` lines 79-174).  The external compiler
(`t.tpl.Parse(text)`) is out of scope; its compiled root node list is the
`nodes` argument.  On any engine error the method returns a `nil`
`*Templatex`, so the error case carries no `Templatex`. -/
def Parse (t : Templatex) (nodes : List Node) (data : Ctx) : Except Err Templatex :=
  match t.input with
  | none => .error .inputRequired
  | some input =>
    match parseNodes t.parseFuncs data t.leftDelimLength t.rightDelimLength nodes ⟨input, 0⟩ with
    | .error (e, _, _) => .error e
    | .ok (nodes2, st2) => .ok { t with nodes := nodes2, input := some st2.input }

/-- Render-time errors of the external renderer, per the spec's error
taxonomy (§7): `inputValidation` is a validator rejecting the extracted
value(s) (the `ErrorInputValidation` class), `noFunc` a call to an
unregistered function, `fieldEval` a failed field lookup, `unsupported`
a construct outside the modelled subset. -/
inductive ExecErr where
  | inputValidation (msg : Str)
  | noFunc (name : Str)
  | fieldEval
  | unsupported
deriving DecidableEq, Repr

/-- Textual value of an argument as passed to a validator call. -/
def argValue : Arg → Str
  | .identifier i => i
  | .field _ => []
  | .str s => s
  | .number t => t

/-- Modelled from the spec: the external renderer
(`text/template.Execute`, out of scope per §1) on one node, following the
collaborator contract of §6 and §4.3-4.4 — literal text is emitted
verbatim, a placeholder invokes its registered validator with all
arguments and emits the substitute value or fails, a field reference
substitutes its rendered text from the context. -/
def execNode (vd : Validators) (data : Ctx) : Node → Except ExecErr Str
  | .text _ s => .ok s
  | .other _ => .error .unsupported
  | .action _ none => .error .unsupported
  | .action _ (some pn) =>
    match pn.cmds with
    | [] => .error .unsupported
    | cmd :: _ =>
      match cmd.args with
      | [] => .error .unsupported
      | .identifier f :: rest =>
        match vd f with
        | none => .error (.noFunc f)
        | some v =>
          match v (rest.map argValue) with
          | .error m => .error (.inputValidation m)
          | .ok out => .ok out
      | .field idents :: _ =>
        match data idents with
        | none => .error .fieldEval
        | some s => .ok s
      | _ => .error .unsupported

/-- Modelled from the spec: the external renderer over the node sequence,
"render(NodeSequence, contextValue) -> outputText | RenderError" (§6). -/
def execNodes (vd : Validators) (data : Ctx) : List Node → Except ExecErr Str
  | [] => .ok []
  | n :: ns =>
    match execNode vd data n with
    | .error e => .error e
    | .ok s =>
      match execNodes vd data ns with
      | .error e => .error e
      | .ok r => .ok (s ++ r)

/-- `Execute` (`src/templatex.go` lines 176-178): run the (rewritten)
template against the context through the external renderer. -/
def Execute (t : Templatex) (data : Ctx) : Except ExecErr Str :=
  execNodes t.validators data t.nodes

/-- The resolve-then-execute pipeline as a caller runs it: the output text
the caller receives, or `none` on any failure of either stage. -/
def pipeline (t : Templatex) (nodes : List Node) (data : Ctx) : Option Str :=
  match Parse t nodes data with
  | .error _ => none
  | .ok tx =>
    match Execute tx data with
    | .error _ => none
    | .ok out => some out

namespace V0

/-- The literal-matching loop of `src/unnamed/part_000` lines 69-82: for
every character of the text node, read one character from the input and
require an exact match; a mismatch fails with the error whose message is
"input does not match template" (`ErrorInputValidation`), while running
out of input mid-literal (`io.EOF`) leaves the loop as a benign end. -/
def matchText : Str → Str → Except Err Str
  | [], cur => .ok cur
  | _ :: _, [] => .ok []
  | c :: cs, r :: rs => if r = c then matchText cs rs else .error .inputValidation

/-- One iteration of the node loop of `src/unnamed/part_000` lines 64-125:
a text node is matched character by character against the input; an action
node whose first command argument is a registered identifier has its
extractor invoked and its arguments spliced; every other case — missing
pipe, command or argument structure, a non-identifier argument, or an
identifier absent from the registry — is skipped with `continue`. -/
def parseNode (pf : Registry) (st : Str) : Node → Except Err (Node × Str)
  | .text p s =>
    match matchText s st with
    | .error e => .error e
    | .ok cur2 => .ok (.text p s, cur2)
  | .other p => .ok (.other p, st)
  | .action p pipe =>
    match pipe with
    | none => .ok (.action p pipe, st)
    | some pn =>
      match pn.cmds with
      | [] => .ok (.action p pipe, st)
      | cmd :: restCmds =>
        match cmd.args with
        | [] => .ok (.action p pipe, st)
        | cmdArg :: restArgs =>
          match cmdArg with
          | .identifier ident =>
            match pf ident with
            | none => .ok (.action p pipe, st)
            | some fn =>
              match fn st with
              | .error e => .error e
              | .ok (args, cur2) =>
                .ok (.action p (some ⟨⟨cmdArg :: (args.map .str ++ restArgs)⟩ :: restCmds⟩),
                     cur2)
          | _ => .ok (.action p pipe, st)

/-- The node loop of `src/unnamed/part_000` over the root node list. -/
def parseNodes (pf : Registry) : List Node → Str → Except Err (List Node × Str)
  | [], st => .ok ([], st)
  | n :: ns, st =>
    match parseNode pf st n with
    | .error e => .error e
    | .ok (n2, st2) =>
      match parseNodes pf ns st2 with
      | .error e => .error e
      | .ok (ns2, st3) => .ok (n2 :: ns2, st3)

/-- `Parse` of `src/unnamed/part_000` lines 55-128: requires input, then
runs the node loop; on any error a `nil` `*Templatex` is returned. -/
def Parse (input : Option Str) (pf : Registry) (nodes : List Node) :
    Except Err (List Node) :=
  match input with
  | none => .error .inputRequired
  | some cur =>
    match parseNodes pf nodes cur with
    | .error e => .error e
    | .ok (nodes2, _) => .ok nodes2

end V0

/-- A placeholder segment of a canonical template source: a call to a
named function with static arguments (`{{inRange 100 200}}`) or a field
reference (`{{.Foo.Bar}}`). -/
inductive Seg where
  | call (f : Str) (staticArgs : List Str)
  | fieldref (path : List Str)

/-- The command the external compiler produces for a segment. -/
def segCmd : Seg → Cmd
  | .call f sargs => ⟨.identifier f :: sargs.map .number⟩
  | .fieldref path => ⟨[.field path]⟩

/-- Source length of a segment including both delimiters. -/
def segLen (L R : Nat) (s : Seg) : Nat := L + (cmdString (segCmd s)).length + R

/-- A canonical template source
`lit₁{{seg₁}}lit₂{{seg₂}} … litₖ{{segₖ}}trail`: each segment preceded by a
literal span, with a final literal span after the last segment. -/
structure TSpec where
  items : List (Str × Seg)
  trail : Str

/-- Modelled from the spec: the external compiler's root node list for a
canonical template source (§6: the compiler "must expose each node's kind,
its byte offset in templateText" and for placeholders the function name
and ordered argument list).  A text node carries its source offset, an
action node the offset of its content just after the left delimiter, and
an empty literal span produces no node.  `o` is the source offset at which
the remaining items start. -/
def compileItems (L R : Nat) : Nat → List (Str × Seg) → List Node
  | _, [] => []
  | o, (lit, s) :: rest =>
    (if lit = [] then [] else [Node.text o lit]) ++
      Node.action (o + lit.length + L) (some ⟨[segCmd s]⟩) ::
        compileItems L R (o + lit.length + segLen L R s) rest

/-- Total source length of a list of items. -/
def itemsLen (L R : Nat) : List (Str × Seg) → Nat
  | [] => 0
  | (lit, s) :: rest => lit.length + segLen L R s + itemsLen L R rest

/-- The compiled node list of a canonical template source. -/
def compile (L R : Nat) (ts : TSpec) : List Node :=
  compileItems L R 0 ts.items ++
    (if ts.trail = [] then [] else [Node.text (itemsLen L R ts.items) ts.trail])

/-- `previousPosition` after the engine has processed all the items,
starting at source offset `o` with previous position `prev`. -/
def endPrev (L R : Nat) : Nat → Nat → List (Str × Seg) → Nat
  | _, prev, [] => prev
  | o, _, (lit, s) :: rest =>
    endPrev L R (o + lit.length + segLen L R s)
      (o + lit.length + L + (cmdString (segCmd s)).length) rest

/-- The input text remaining at a list of items is a correct instance of
them: each segment's preceding literal span appears verbatim; each call
segment's extractor succeeds and returns exactly the raw strings it
consumed, and its validator accepts them, echoing their concatenation;
each field reference's rendered text appears verbatim.  `final` is the
input remaining after the last segment. -/
inductive Fits (pf : Registry) (vd : Validators) (data : Ctx) :
    List (Str × Seg) → Str → Str → Prop
  | nil (final : Str) : Fits pf vd data [] final final
  | call (lit f : Str) (sargs : List Str) (fn : ParseFunc) (v : ValidateFunc)
      (as : List Str) (cur final : Str) (items : List (Str × Seg))
      (hpf : pf f = some fn)
      (hext : fn (as.flatten ++ cur) = .ok (as, cur))
      (hvd : vd f = some v)
      (hecho : v (as ++ sargs) = .ok as.flatten)
      (hrest : Fits pf vd data items cur final) :
      Fits pf vd data ((lit, .call f sargs) :: items) (lit ++ (as.flatten ++ cur)) final
  | fieldref (lit : Str) (path : List Str) (s : Str) (cur final : Str)
      (items : List (Str × Seg))
      (hfield : data path = some s)
      (hrest : Fits pf vd data items cur final) :
      Fits pf vd data ((lit, .fieldref path) :: items) (lit ++ (s ++ cur)) final

/-- An extractor that consumes exactly one byte and returns it
(a degenerate but legal `ParseFunc`, used at concrete inputs). -/
def extTake1 : ParseFunc := fun c => .ok ([c.take 1], c.drop 1)

/-- `ParseQuotedString` of `src/unnamed/part_002`: reads the input up to
the first quote character and returns it as a single extracted string,
leaving the quote unconsumed (`ReadUntil` of `src/readers.go` over the
delimiters `"` and `'`; end of input is a benign end). -/
def ParseQuotedString : ParseFunc := fun c =>
  .ok ([c.takeWhile (fun a => decide (a ≠ '"') && decide (a ≠ '\''))],
       c.dropWhile (fun a => decide (a ≠ '"') && decide (a ≠ '\'')))

/-- A validator that accepts anything and echoes the concatenation of all
its arguments (used at concrete inputs). -/
def vdEcho : ValidateFunc := fun args => .ok args.flatten

/-- A validator that rejects every call (used at concrete inputs). -/
def vdReject : ValidateFunc := fun _ => .error "value is not in range".toList

/-- A concrete registry carrying one extractor under the name `f`. -/
def regT : Registry := fun n => if n = "f".toList then some extTake1 else none

/-- Concrete validators: `f` echoes its arguments. -/
def vdT : Validators := fun n => if n = "f".toList then some vdEcho else none

/-- Concrete validators: `f` rejects every call. -/
def vdRejT : Validators := fun n => if n = "f".toList then some vdReject else none

/-- A concrete context rendering the field path `Foo` as `7`. -/
def dataT : Ctx := fun p => if p = ["Foo".toList] then some "7".toList else none

/-- The empty context: every field path fails to evaluate. -/
def data0 : Ctx := fun _ => none

/-- The empty registry. -/
def reg0 : Registry := fun _ => none

/-- The empty validator map. -/
def vd0 : Validators := fun _ => none

/-! ### Behaviour of the cursor and of one engine step -/

theorem discard_natCast (n : Nat) (cur : Str) (hn : n ≤ cur.length) :
    discard (n : Int) cur = .ok (cur.drop n) := by
  have h1 : ¬ ((n : Int) < 0) := by omega
  have h2 : ((n : Int)).toNat = n := by omega
  simp [discard, h1, h2, hn]

theorem discard_natCast_short (n : Nat) (cur : Str) (hn : cur.length < n) :
    discard (n : Int) cur = .error .shortInput := by
  have h1 : ¬ ((n : Int) < 0) := by omega
  have h2 : ((n : Int)).toNat = n := by omega
  have h3 : ¬ (n ≤ cur.length) := by omega
  simp [discard, h1, h2, h3]

theorem parseNode_identifier_eq (pf : Registry) (data : Ctx) (L R p prev d : Nat)
    (cur : Str) (f : Str) (restArgs : List Arg) (restCmds : List Cmd)
    (hd : bytesToRead L R prev p = (d : Int)) (hlen : d ≤ cur.length) :
    parseNode pf data L R ⟨cur, prev⟩
        (.action p (some ⟨⟨.identifier f :: restArgs⟩ :: restCmds⟩)) =
      match pf f with
      | none => .error .unsupportedFunction
      | some fn =>
        match fn (cur.drop d) with
        | .error e => .error e
        | .ok (args, cur2) =>
          .ok (.action p (some ⟨⟨.identifier f :: (args.map .str ++ restArgs)⟩ :: restCmds⟩),
               ⟨cur2, p + (cmdString ⟨.identifier f :: restArgs⟩).length⟩) := by
  simp only [parseNode, hd, discard_natCast d cur hlen]

theorem parseNode_field_ok (pf : Registry) (data : Ctx) (L R p prev d : Nat)
    (cur : Str) (idents : List Str) (rendered : Str)
    (restArgs : List Arg) (restCmds : List Cmd)
    (hd : bytesToRead L R prev p = (d : Int)) (hlen : d ≤ cur.length)
    (hfield : data idents = some rendered)
    (hr : rendered.length ≤ cur.length - d) :
    parseNode pf data L R ⟨cur, prev⟩
        (.action p (some ⟨⟨.field idents :: restArgs⟩ :: restCmds⟩)) =
      .ok (.action p (some ⟨⟨.field idents :: restArgs⟩ :: restCmds⟩),
           ⟨(cur.drop d).drop rendered.length,
            p + (cmdString ⟨.field idents :: restArgs⟩).length⟩) := by
  have hr2 : rendered.length ≤ (cur.drop d).length := by
    simpa using hr
  simp only [parseNode, hd, discard_natCast d cur hlen,
    discard_natCast rendered.length (cur.drop d) hr2, hfield]

theorem map_argValue_str (as : List Str) : List.map (argValue ∘ Arg.str) as = as := by
  induction as with
  | nil => rfl
  | cons a t ih => simp [argValue, Function.comp, ih]

theorem map_argValue_append (as : List Str) (rest : List Arg) :
    (as.map Arg.str ++ rest).map argValue = as ++ rest.map argValue := by
  simp [List.map_map, map_argValue_str]

/-! ### Claims about the engine of `src/templatex.go` -/

/-- C3: the number of input bytes discarded before invoking a
placeholder's extractor is the node's template-source position minus the
left-delimiter length when it is the first placeholder processed
(`previousPosition = 0`), and otherwise the distance from the previous
placeholder's end position minus the sum of the left- and right-delimiter
lengths; the delimiter lengths come from configuration, defaulting to two
bytes each (`New`).  The discard is visible as the prefix dropped from the
remaining input before the extractor runs. -/
theorem bytes_to_discard_arithmetic (pf : Registry) (data : Ctx) (L R : Nat)
    (pa : Nat) (ca ca2 : Str) (asa : List Str)
    (pb prevb : Nat) (cb cb2 : Str) (asb : List Str)
    (f : Str) (restArgs : List Arg) (restCmds : List Cmd) (fn : ParseFunc)
    (hpf : pf f = some fn)
    (h1 : L ≤ pa) (h2 : pa - L ≤ ca.length)
    (hexta : fn (ca.drop (pa - L)) = .ok (asa, ca2))
    (h3 : prevb ≠ 0) (h4 : prevb + (L + R) ≤ pb)
    (h5 : pb - (prevb + (L + R)) ≤ cb.length)
    (hextb : fn (cb.drop (pb - (prevb + (L + R)))) = .ok (asb, cb2)) :
    (New.leftDelimLength = 2 ∧ New.rightDelimLength = 2) ∧
    parseNode pf data L R ⟨ca, 0⟩
        (.action pa (some ⟨⟨.identifier f :: restArgs⟩ :: restCmds⟩)) =
      .ok (.action pa (some ⟨⟨.identifier f :: (asa.map .str ++ restArgs)⟩ :: restCmds⟩),
           ⟨ca2, pa + (cmdString ⟨.identifier f :: restArgs⟩).length⟩) ∧
    parseNode pf data L R ⟨cb, prevb⟩
        (.action pb (some ⟨⟨.identifier f :: restArgs⟩ :: restCmds⟩)) =
      .ok (.action pb (some ⟨⟨.identifier f :: (asb.map .str ++ restArgs)⟩ :: restCmds⟩),
           ⟨cb2, pb + (cmdString ⟨.identifier f :: restArgs⟩).length⟩) := by
  refine ⟨⟨rfl, rfl⟩, ?_, ?_⟩
  · have hd : bytesToRead L R 0 pa = ((pa - L : Nat) : Int) := by
      simp [bytesToRead]
      omega
    rw [parseNode_identifier_eq pf data L R pa 0 (pa - L) ca f restArgs restCmds hd h2]
    simp [hpf, hexta]
  · have hd : bytesToRead L R prevb pb = ((pb - (prevb + (L + R)) : Nat) : Int) := by
      simp [bytesToRead, h3]
      omega
    rw [parseNode_identifier_eq pf data L R pb prevb (pb - (prevb + (L + R))) cb f restArgs
      restCmds hd h5]
    simp [hpf, hextb]

/-- C3 witness: the arithmetic evaluated at concrete engine states — a
first placeholder at source position 5 with left delimiter 2 discards 3
bytes, a later one at position 12 after a previous end position 3 discards
12 − 3 − 4 = 5 bytes. -/
theorem bytes_to_discard_arithmetic_witness :
    (regT "f".toList = some extTake1 ∧
     extTake1 ("xyzb".toList.drop (5 - 2)) = .ok (["b".toList], []) ∧
     extTake1 ("vwxyzb".toList.drop (12 - (3 + (2 + 2)))) = .ok (["b".toList], [])) ∧
    ((New.leftDelimLength = 2 ∧ New.rightDelimLength = 2) ∧
      parseNode regT data0 2 2 ⟨"xyzb".toList, 0⟩
          (.action 5 (some ⟨⟨[.identifier "f".toList]⟩ :: []⟩)) =
        .ok (.action 5 (some ⟨⟨[.identifier "f".toList, .str "b".toList]⟩ :: []⟩),
             ⟨[], 5 + (cmdString ⟨[.identifier "f".toList]⟩).length⟩) ∧
      parseNode regT data0 2 2 ⟨"vwxyzb".toList, 3⟩
          (.action 12 (some ⟨⟨[.identifier "f".toList]⟩ :: []⟩)) =
        .ok (.action 12 (some ⟨⟨[.identifier "f".toList, .str "b".toList]⟩ :: []⟩),
             ⟨[], 12 + (cmdString ⟨[.identifier "f".toList]⟩).length⟩)) := by
  refine ⟨⟨rfl, by decide, by decide⟩, ?_⟩
  exact bytes_to_discard_arithmetic regT data0 2 2 5 "xyzb".toList [] ["b".toList]
    12 3 "vwxyzb".toList [] ["b".toList] "f".toList [] [] extTake1 rfl
    (by decide) (by decide) (by decide) (by decide) (by decide) (by decide) (by decide)

/-- C4: when a placeholder's extractor succeeds, the rewritten command
keeps the function name as its first argument and the extracted raw
strings are spliced in as literal string-node arguments immediately after
it, ahead of all pre-existing static arguments, so that at render time the
validator receives the extracted string(s) first and the static arguments
after them. -/
theorem argument_splicing_order (pf : Registry) (vd : Validators) (data : Ctx)
    (L R p prev d : Nat) (cur cur2 : Str) (f : Str) (sargs : List Arg)
    (restCmds : List Cmd) (fn : ParseFunc) (v : ValidateFunc) (as : List Str)
    (outv : Str)
    (hd : bytesToRead L R prev p = (d : Int)) (hlen : d ≤ cur.length)
    (hpf : pf f = some fn)
    (hext : fn (cur.drop d) = .ok (as, cur2))
    (hvd : vd f = some v)
    (hv : v (as ++ sargs.map argValue) = .ok outv) :
    parseNode pf data L R ⟨cur, prev⟩
        (.action p (some ⟨⟨.identifier f :: sargs⟩ :: restCmds⟩)) =
      .ok (.action p (some ⟨⟨.identifier f :: (as.map .str ++ sargs)⟩ :: restCmds⟩),
           ⟨cur2, p + (cmdString ⟨.identifier f :: sargs⟩).length⟩) ∧
    execNode vd data
        (.action p (some ⟨⟨.identifier f :: (as.map .str ++ sargs)⟩ :: restCmds⟩)) =
      .ok outv := by
  constructor
  · rw [parseNode_identifier_eq pf data L R p prev d cur f sargs restCmds hd hlen]
    simp [hpf, hext]
  · simp [execNode, hvd, map_argValue_str, hv]

/-- C4 witness: splicing `f` with static argument `100` over input `X!`
turns `f 100` into `f "X" 100`, and the validator is called with `X`
before `100`. -/
theorem argument_splicing_order_witness :
    (bytesToRead 2 2 0 2 = (0 : Int) ∧
     regT "f".toList = some extTake1 ∧
     extTake1 ("X!".toList.drop 0) = .ok (["X".toList], "!".toList) ∧
     vdT "f".toList = some vdEcho ∧
     vdEcho (["X".toList] ++ [Arg.number "100".toList].map argValue) =
       .ok "X100".toList) ∧
    parseNode regT data0 2 2 ⟨"X!".toList, 0⟩
        (.action 2 (some ⟨⟨[.identifier "f".toList, .number "100".toList]⟩ :: []⟩)) =
      .ok (.action 2 (some ⟨⟨[.identifier "f".toList, .str "X".toList,
                              .number "100".toList]⟩ :: []⟩),
           ⟨"!".toList,
            2 + (cmdString ⟨[.identifier "f".toList, .number "100".toList]⟩).length⟩) ∧
    execNode vdT data0
        (.action 2 (some ⟨⟨[.identifier "f".toList, .str "X".toList,
                            .number "100".toList]⟩ :: []⟩)) =
      .ok "X100".toList := by
  refine ⟨⟨by decide, rfl, by decide, rfl, by decide⟩, ?_⟩
  exact argument_splicing_order regT vdT data0 2 2 2 0 0 "X!".toList "!".toList
    "f".toList [.number "100".toList] [] extTake1 vdEcho ["X".toList] "X100".toList
    (by decide) (by decide) rfl (by decide) rfl (by decide)

/-- C5: a placeholder whose identifier name has no entry in the registered
extractor map makes resolution fail with `ErrorUnsupportedFunction` — the
node is never silently skipped — at any engine state the node may be
reached in. -/
theorem unknown_placeholder (pf : Registry) (data : Ctx) (L R p prev d : Nat)
    (cur : Str) (f : Str) (restArgs : List Arg) (restCmds : List Cmd)
    (rest : List Node)
    (hd : bytesToRead L R prev p = (d : Int)) (hlen : d ≤ cur.length)
    (hpf : pf f = none) :
    parseNodes pf data L R
        (.action p (some ⟨⟨.identifier f :: restArgs⟩ :: restCmds⟩) :: rest)
        ⟨cur, prev⟩ =
      .error (ErrorUnsupportedFunction,
              .action p (some ⟨⟨.identifier f :: restArgs⟩ :: restCmds⟩) :: rest,
              ⟨cur, prev⟩) := by
  simp only [parseNodes]
  rw [parseNode_identifier_eq pf data L R p prev d cur f restArgs restCmds hd hlen]
  simp [hpf, ErrorUnsupportedFunction]

/-- C5 witness: an unregistered placeholder name `g` fails resolution with
`ErrorUnsupportedFunction` at a concrete state. -/
theorem unknown_placeholder_witness :
    (bytesToRead 2 2 0 2 = (0 : Int) ∧ reg0 "g".toList = none) ∧
    parseNodes reg0 data0 2 2
        [.action 2 (some ⟨⟨[.identifier "g".toList]⟩ :: []⟩)] ⟨[], 0⟩ =
      .error (ErrorUnsupportedFunction,
              [.action 2 (some ⟨⟨[.identifier "g".toList]⟩ :: []⟩)], ⟨[], 0⟩) := by
  refine ⟨⟨by decide, rfl⟩, ?_⟩
  exact unknown_placeholder reg0 data0 2 2 2 0 0 [] "g".toList [] [] []
    (by decide) (by decide) rfl

/-- C6: a field-reference node consumes no registry function — its
resolution result is identical under any two registries — and on success
the node is left unrewritten while exactly the byte length of the text
rendered for that one field reference from the supplied context value is
discarded from the cursor; the skipped input bytes are never compared to
the rendered text (the conclusion holds for every cursor content of
sufficient length). -/
theorem field_reference_skipping (pf1 pf2 pf : Registry) (data : Ctx)
    (L R p prev d : Nat) (cur : Str) (idents : List Str) (rendered : Str)
    (restArgs : List Arg) (restCmds : List Cmd)
    (hd : bytesToRead L R prev p = (d : Int)) (hlen : d ≤ cur.length)
    (hfield : data idents = some rendered)
    (hr : rendered.length ≤ cur.length - d) :
    parseNode pf1 data L R ⟨cur, prev⟩
        (.action p (some ⟨⟨.field idents :: restArgs⟩ :: restCmds⟩)) =
      parseNode pf2 data L R ⟨cur, prev⟩
        (.action p (some ⟨⟨.field idents :: restArgs⟩ :: restCmds⟩)) ∧
    parseNode pf data L R ⟨cur, prev⟩
        (.action p (some ⟨⟨.field idents :: restArgs⟩ :: restCmds⟩)) =
      .ok (.action p (some ⟨⟨.field idents :: restArgs⟩ :: restCmds⟩),
           ⟨(cur.drop d).drop rendered.length,
            p + (cmdString ⟨.field idents :: restArgs⟩).length⟩) :=
  ⟨rfl, parseNode_field_ok pf data L R p prev d cur idents rendered restArgs
    restCmds hd hlen hfield hr⟩

/-- C6 witness: the field `{{.Foo}}` rendering as `7` skips one input byte
after the two-byte pre-placeholder discard, leaving the node unrewritten. -/
theorem field_reference_skipping_witness :
    (bytesToRead 2 2 0 4 = (2 : Int) ∧ dataT ["Foo".toList] = some "7".toList) ∧
    parseNode regT dataT 2 2 ⟨"ab7c".toList, 0⟩
         (.action 4 (some ⟨⟨[.field ["Foo".toList]]⟩ :: []⟩)) =
       parseNode reg0 dataT 2 2 ⟨"ab7c".toList, 0⟩
         (.action 4 (some ⟨⟨[.field ["Foo".toList]]⟩ :: []⟩)) ∧
    parseNode reg0 dataT 2 2 ⟨"ab7c".toList, 0⟩
        (.action 4 (some ⟨⟨[.field ["Foo".toList]]⟩ :: []⟩)) =
      .ok (.action 4 (some ⟨⟨[.field ["Foo".toList]]⟩ :: []⟩),
           ⟨("ab7c".toList.drop 2).drop ("7".toList).length,
            4 + (cmdString ⟨[.field ["Foo".toList]]⟩).length⟩) := by
  refine ⟨⟨by decide, by decide⟩, ?_, ?_⟩
  · exact (field_reference_skipping regT reg0 reg0 dataT 2 2 4 0 2 "ab7c".toList
      ["Foo".toList] "7".toList [] [] (by decide) (by decide) (by decide) (by decide)).1
  · exact (field_reference_skipping regT reg0 reg0 dataT 2 2 4 0 2 "ab7c".toList
      ["Foo".toList] "7".toList [] [] (by decide) (by decide) (by decide) (by decide)).2

/-- C7 (amended): an action node whose first command argument is neither
an identifier nor a field reference — for instance a literal string or a
number, as in `{{- 45}}` — fails resolution with `ErrorUnsupportedNode`
at any engine state; but a root node of a non-action kind the engine does
not recognise (`if`, `range`, comment, ...) is skipped without error
rather than rejected. -/
theorem unsupported_node_amended (pf : Registry) (data : Ctx)
    (L R p prev d p2 : Nat) (cur : Str) (s t : Str)
    (restArgs : List Arg) (restCmds : List Cmd)
    (hd : bytesToRead L R prev p = (d : Int)) (hlen : d ≤ cur.length) :
    parseNode pf data L R ⟨cur, prev⟩
        (.action p (some ⟨⟨.str s :: restArgs⟩ :: restCmds⟩)) =
      .error ErrorUnsupportedNode ∧
    parseNode pf data L R ⟨cur, prev⟩
        (.action p (some ⟨⟨.number t :: restArgs⟩ :: restCmds⟩)) =
      .error ErrorUnsupportedNode ∧
    parseNode pf data L R ⟨cur, prev⟩ (.other p2) = .ok (.other p2, ⟨cur, prev⟩) := by
  refine ⟨?_, ?_, rfl⟩
  · simp only [parseNode, hd, discard_natCast d cur hlen]
    rfl
  · simp only [parseNode, hd, discard_natCast d cur hlen]
    rfl

/-- C7 witness: a number first argument (the tree of `{{- 45}}`) is
rejected with `ErrorUnsupportedNode`, while an `if`-style root node is
skipped. -/
theorem unsupported_node_amended_witness :
    (bytesToRead 2 2 0 2 = (0 : Int)) ∧
    parseNode reg0 data0 2 2 ⟨[], 0⟩
        (.action 2 (some ⟨⟨[.str "x".toList]⟩ :: []⟩)) = .error ErrorUnsupportedNode ∧
    parseNode reg0 data0 2 2 ⟨[], 0⟩
        (.action 2 (some ⟨⟨[.number "45".toList]⟩ :: []⟩)) = .error ErrorUnsupportedNode ∧
    parseNode reg0 data0 2 2 ⟨[], 0⟩ (.other 9) = .ok (.other 9, ⟨[], 0⟩) := by
  refine ⟨by decide, ?_⟩
  exact unsupported_node_amended reg0 data0 2 2 2 0 0 9 [] "x".toList "45".toList [] []
    (by decide) (by decide)

/-- C7 counterexample: a root node of an unrecognised non-action kind
(such as an `if` node) does not make resolution fail — `Parse` succeeds on
a template containing only such a node — contradicting the claim that
every unrecognised node kind yields `ErrorUnsupportedNode`. -/
theorem unsupported_node_counterexample :
    (Parse ⟨[], some [], reg0, vd0, 2, 2⟩ [Node.other 0] data0).isOk = true := rfl

/-- C9: whenever the engine asks the cursor to discard more bytes than
remain — be it the computed discard before a placeholder or the rendered
byte length of a field reference — resolution fails with the short-input
error (`ErrorShortInput`). -/
theorem short_input (pf : Registry) (data : Ctx) (L R p prev d : Nat)
    (cur : Str) (a : Arg) (restArgs : List Arg) (restCmds : List Cmd)
    (p2 prev2 d2 : Nat) (cur2 : Str) (idents : List Str) (rendered : Str)
    (hd : bytesToRead L R prev p = (d : Int)) (hshort : cur.length < d)
    (hd2 : bytesToRead L R prev2 p2 = (d2 : Int)) (hlen2 : d2 ≤ cur2.length)
    (hfield : data idents = some rendered)
    (hshort2 : cur2.length - d2 < rendered.length) :
    parseNode pf data L R ⟨cur, prev⟩
        (.action p (some ⟨⟨a :: restArgs⟩ :: restCmds⟩)) = .error ErrorShortInput ∧
    parseNode pf data L R ⟨cur2, prev2⟩
        (.action p2 (some ⟨⟨.field idents :: restArgs⟩ :: restCmds⟩)) =
      .error ErrorShortInput := by
  constructor
  · simp only [parseNode, hd, discard_natCast_short d cur hshort]
    rfl
  · have hr : (cur2.drop d2).length < rendered.length := by
      simpa using hshort2
    simp only [parseNode, hd2, discard_natCast d2 cur2 hlen2, hfield,
      discard_natCast_short rendered.length (cur2.drop d2) hr]
    rfl

/-- C9 witness: a first placeholder at position 7 over a two-byte input
needs a five-byte discard and fails short; a field rendering three bytes
over one remaining byte fails short. -/
theorem short_input_witness :
    (bytesToRead 2 2 0 7 = (5 : Int) ∧ ("ab".toList).length < 5 ∧
     bytesToRead 2 2 0 2 = (0 : Int) ∧ dataT ["Foo".toList] = some "7".toList) ∧
    parseNode reg0 dataT 2 2 ⟨"ab".toList, 0⟩
        (.action 7 (some ⟨⟨[.identifier "f".toList]⟩ :: []⟩)) =
      .error ErrorShortInput ∧
    parseNode reg0 dataT 2 2 ⟨[], 0⟩
        (.action 2 (some ⟨⟨[.field ["Foo".toList]]⟩ :: []⟩)) =
      .error ErrorShortInput := by
  refine ⟨⟨by decide, by decide, by decide, by decide⟩, ?_⟩
  exact short_input reg0 dataT 2 2 7 0 5 "ab".toList (.identifier "f".toList) [] []
    2 0 0 [] ["Foo".toList] "7".toList (by decide) (by decide) (by decide) (by decide)
    (by decide) (by decide)

/-- C10: `Parse` is not atomic on failure: its error return carries no
`*Templatex` (the instance is nil), yet at this concrete registry,
template `{{f}}{{g}}` and input `ab` the engine fails on the second
placeholder with `ErrorUnsupportedFunction` only after a byte of input has
been consumed and the first placeholder node has been rewritten in place
with its extracted argument — partial mutations that persist on the
caller's template tree and reader. -/
theorem parse_not_atomic :
    parseNodes regT data0 2 2
        [.action 2 (some ⟨[⟨[.identifier "f".toList]⟩]⟩),
         .action 7 (some ⟨[⟨[.identifier "g".toList]⟩]⟩)] ⟨"ab".toList, 0⟩ =
      .error (ErrorUnsupportedFunction,
              [.action 2 (some ⟨[⟨[.identifier "f".toList, .str "a".toList]⟩]⟩),
               .action 7 (some ⟨[⟨[.identifier "g".toList]⟩]⟩)],
              ⟨"b".toList, 3⟩) ∧
    (.action 2 (some ⟨[⟨[.identifier "f".toList, .str "a".toList]⟩]⟩) : Node) ≠
      .action 2 (some ⟨[⟨[.identifier "f".toList]⟩]⟩) ∧
    ("b".toList).length < ("ab".toList).length ∧
    Parse ⟨[], some "ab".toList, regT, vd0, 2, 2⟩
        [.action 2 (some ⟨[⟨[.identifier "f".toList]⟩]⟩),
         .action 7 (some ⟨[⟨[.identifier "g".toList]⟩]⟩)] data0 =
      .error ErrorUnsupportedFunction :=
  ⟨by decide, by decide, by decide, rfl⟩

/-! ### Claims about the literal-matching engine of `src/unnamed/part_000` -/

theorem matchText_mismatch (a b : Char) (s2 c2 : Str) (ha : a ≠ b) :
    ∀ pre : Str,
      V0.matchText (pre ++ a :: s2) (pre ++ b :: c2) = .error .inputValidation := by
  intro pre
  induction pre with
  | nil =>
    have hba : ¬ (b = a) := fun h => ha h.symm
    simp [V0.matchText, hba]
  | cons c cs ih => simp [V0.matchText, ih]

theorem matchText_exhaust (s t : Str) : V0.matchText (s ++ t) s = .ok [] := by
  induction s with
  | nil => cases t <;> simp [V0.matchText]
  | cons c cs ih => simp [V0.matchText, ih]

/-- C2: in the literal-matching engine each character of a literal node is
read from the cursor and required to match exactly: an input that diverges
from the template's literal span at some position — as happens when input
fields appear in a different order than the template declares — makes
resolution fail with `ErrorInputValidation`, while cursor exhaustion
mid-literal is tolerated as a benign end rather than an error. -/
theorem literal_mismatch_detection (pf : Registry) (p p2 p3 : Nat) (a b : Char)
    (pre s2 c2 s t : Str) (rest : List Node) (ha : a ≠ b) :
    V0.parseNodes pf (Node.text p (pre ++ a :: s2) :: rest) (pre ++ b :: c2) =
      .error ErrorInputValidation ∧
    V0.parseNodes pf [Node.text p2 (s ++ t)] s = .ok ([Node.text p2 (s ++ t)], []) ∧
    V0.Parse (some "a: 1\nb: 1\nc: 1".toList) pf
        [Node.text p3 "c: 1\nb: 1\na: 1".toList] = .error ErrorInputValidation := by
  refine ⟨?_, ?_, ?_⟩
  · simp [V0.parseNodes, V0.parseNode, matchText_mismatch a b s2 c2 ha pre,
      ErrorInputValidation]
  · simp [V0.parseNodes, V0.parseNode, matchText_exhaust s t]
  · have h : V0.matchText "c: 1\nb: 1\na: 1".toList "a: 1\nb: 1\nc: 1".toList =
        .error .inputValidation := by decide
    simp only [V0.Parse, V0.parseNodes, V0.parseNode, h, ErrorInputValidation]

/-- C2 witness: the mismatch, the tolerated exhaustion and the
out-of-order test case evaluated concretely. -/
theorem literal_mismatch_detection_witness :
    ('x' ≠ 'y') ∧
    (V0.parseNodes reg0 [Node.text 0 ("ab".toList ++ 'x' :: "c".toList)]
        ("ab".toList ++ 'y' :: "d".toList) = .error ErrorInputValidation ∧
     V0.parseNodes reg0 [Node.text 4 ("ab".toList ++ "cd".toList)] "ab".toList =
       .ok ([Node.text 4 ("ab".toList ++ "cd".toList)], []) ∧
     V0.Parse (some "a: 1\nb: 1\nc: 1".toList) reg0
        [Node.text 6 "c: 1\nb: 1\na: 1".toList] = .error ErrorInputValidation) := by
  refine ⟨by decide, ?_⟩
  exact literal_mismatch_detection reg0 0 4 6 'x' 'y' "ab".toList "c".toList "d".toList
    "ab".toList "cd".toList [] (by decide)

/-! ### The resolve-then-execute pipeline -/

/-- C8: when a placeholder's extractor succeeds with raw strings but the
registered validator rejects them together with the static arguments, the
resolve-then-execute pipeline ends in the `ErrorInputValidation`-class
render error carrying the validator's message, and the caller receives no
output text. -/
theorem extractor_validator_composition (pf : Registry) (vd : Validators)
    (data : Ctx) (L R p : Nat) (cur cur2 : Str) (f : Str) (sargs : List Arg)
    (fn : ParseFunc) (v : ValidateFunc) (as : List Str) (m : Str) (ns0 : List Node)
    (h1 : L ≤ p) (h2 : p - L ≤ cur.length)
    (hpf : pf f = some fn)
    (hext : fn (cur.drop (p - L)) = .ok (as, cur2))
    (hvd : vd f = some v)
    (hrej : v (as ++ sargs.map argValue) = .error m) :
    Parse ⟨ns0, some cur, pf, vd, L, R⟩
        [.action p (some ⟨[⟨.identifier f :: sargs⟩]⟩)] data =
      .ok ⟨[.action p (some ⟨[⟨.identifier f :: (as.map .str ++ sargs)⟩]⟩)],
           some cur2, pf, vd, L, R⟩ ∧
    Execute (⟨[.action p (some ⟨[⟨.identifier f :: (as.map .str ++ sargs)⟩]⟩)],
        some cur2, pf, vd, L, R⟩ : Templatex) data = .error (.inputValidation m) ∧
    pipeline ⟨ns0, some cur, pf, vd, L, R⟩
        [.action p (some ⟨[⟨.identifier f :: sargs⟩]⟩)] data = none := by
  have hd : bytesToRead L R 0 p = ((p - L : Nat) : Int) := by
    simp [bytesToRead]
    omega
  have hstep := parseNode_identifier_eq pf data L R p 0 (p - L) cur f sargs [] hd h2
  simp only [hpf, hext] at hstep
  have hparse : Parse ⟨ns0, some cur, pf, vd, L, R⟩
      [.action p (some ⟨[⟨.identifier f :: sargs⟩]⟩)] data =
      .ok ⟨[.action p (some ⟨[⟨.identifier f :: (as.map .str ++ sargs)⟩]⟩)],
           some cur2, pf, vd, L, R⟩ := by
    simp only [Parse, parseNodes, hstep]
  have hexec : Execute (⟨[.action p (some ⟨[⟨.identifier f :: (as.map .str ++ sargs)⟩]⟩)],
      some cur2, pf, vd, L, R⟩ : Templatex) data = .error (.inputValidation m) := by
    simp only [Execute, execNodes, execNode, hvd, map_argValue_append]
    simp [hrej]
  exact ⟨hparse, hexec, by simp [pipeline, hparse, hexec]⟩

/-- C8 witness: the extractor takes `X` but the validator rejects
`(X, 100)`; the pipeline ends in the validation-class error with the
validator's message and the caller receives no output. -/
theorem extractor_validator_composition_witness :
    (regT "f".toList = some extTake1 ∧
     extTake1 ("X!".toList.drop (2 - 2)) = .ok (["X".toList], "!".toList) ∧
     vdRejT "f".toList = some vdReject ∧
     vdReject (["X".toList] ++ [Arg.number "100".toList].map argValue) =
       .error "value is not in range".toList) ∧
    (Parse ⟨[], some "X!".toList, regT, vdRejT, 2, 2⟩
        [.action 2 (some ⟨[⟨[.identifier "f".toList, .number "100".toList]⟩]⟩)] data0 =
      .ok ⟨[.action 2 (some ⟨[⟨[.identifier "f".toList, .str "X".toList,
                               .number "100".toList]⟩]⟩)],
           some "!".toList, regT, vdRejT, 2, 2⟩ ∧
     Execute (⟨[.action 2 (some ⟨[⟨[.identifier "f".toList, .str "X".toList,
         .number "100".toList]⟩]⟩)], some "!".toList, regT, vdRejT, 2, 2⟩ : Templatex)
        data0 = .error (.inputValidation "value is not in range".toList) ∧
     pipeline ⟨[], some "X!".toList, regT, vdRejT, 2, 2⟩
        [.action 2 (some ⟨[⟨[.identifier "f".toList, .number "100".toList]⟩]⟩)] data0 =
       none) := by
  refine ⟨⟨rfl, by decide, rfl, by decide⟩, ?_⟩
  exact extractor_validator_composition regT vdRejT data0 2 2 2 "X!".toList "!".toList
    "f".toList [.number "100".toList] extTake1 vdReject ["X".toList]
    "value is not in range".toList [] (by decide) (by decide) rfl (by decide) rfl
    (by decide)

/-! ### Round-trip over canonical templates -/

theorem map_argValue_number (sargs : List Str) :
    List.map (argValue ∘ Arg.number) sargs = sargs := by
  induction sargs with
  | nil => rfl
  | cons a t ih => simp [argValue, Function.comp, ih]

theorem map_argValue_call (as sargs : List Str) :
    (as.map Arg.str ++ sargs.map Arg.number).map argValue = as ++ sargs := by
  simp [List.map_map, map_argValue_str, map_argValue_number]

theorem parseNodes_textOpt_ok (pf : Registry) (data : Ctx) (L R : Nat) (lit : Str)
    (o : Nat) (ns ns2 : List Node) (st st2 : St)
    (h : parseNodes pf data L R ns st = .ok (ns2, st2)) :
    parseNodes pf data L R ((if lit = [] then [] else [Node.text o lit]) ++ ns) st =
      .ok ((if lit = [] then [] else [Node.text o lit]) ++ ns2, st2) := by
  by_cases hl : lit = []
  · simp [hl, h]
  · simp [hl, parseNodes, parseNode, h]

theorem execNodes_textOpt_ok (vd : Validators) (data : Ctx) (lit : Str) (o : Nat)
    (ns : List Node) (r : Str)
    (h : execNodes vd data ns = .ok r) :
    execNodes vd data ((if lit = [] then [] else [Node.text o lit]) ++ ns) =
      .ok (lit ++ r) := by
  by_cases hl : lit = []
  · simp [hl, h]
  · simp [hl, execNodes, execNode, h]

theorem parseNodes_append (pf : Registry) (data : Ctx) (L R : Nat) (xs : List Node) :
    ∀ ys st, parseNodes pf data L R (xs ++ ys) st =
      match parseNodes pf data L R xs st with
      | .error (e, ns2, st2) => .error (e, ns2 ++ ys, st2)
      | .ok (ns2, st2) =>
        match parseNodes pf data L R ys st2 with
        | .error (e, ns3, st3) => .error (e, ns2 ++ ns3, st3)
        | .ok (ns3, st3) => .ok (ns2 ++ ns3, st3) := by
  induction xs with
  | nil =>
    intro ys st
    simp only [List.nil_append, parseNodes]
    cases h : parseNodes pf data L R ys st with
    | error e => obtain ⟨e, ns3, st3⟩ := e; rfl
    | ok v => obtain ⟨ns3, st3⟩ := v; rfl
  | cons n ns ih =>
    intro ys st
    simp only [List.cons_append, parseNodes, List.append_eq]
    cases hpn : parseNode pf data L R st n with
    | error e => rfl
    | ok v =>
      obtain ⟨n2, st2⟩ := v
      dsimp only
      rw [ih ys st2]
      cases hns : parseNodes pf data L R ns st2 with
      | error e => obtain ⟨e, ns3, st3⟩ := e; rfl
      | ok v =>
        obtain ⟨ns3, st3⟩ := v
        dsimp only
        cases hys : parseNodes pf data L R ys st3 with
        | error e => obtain ⟨e, ns4, st4⟩ := e; rfl
        | ok v => obtain ⟨ns4, st4⟩ := v; rfl

theorem execNodes_append (vd : Validators) (data : Ctx) (xs : List Node) :
    ∀ ys, execNodes vd data (xs ++ ys) =
      match execNodes vd data xs with
      | .error e => .error e
      | .ok a =>
        match execNodes vd data ys with
        | .error e => .error e
        | .ok b => .ok (a ++ b) := by
  induction xs with
  | nil =>
    intro ys
    simp only [List.nil_append, execNodes]
    cases execNodes vd data ys with
    | error e => rfl
    | ok b => rfl
  | cons n ns ih =>
    intro ys
    simp only [List.cons_append, execNodes, List.append_eq]
    cases hn : execNode vd data n with
    | error e => rfl
    | ok s =>
      dsimp only
      rw [ih ys]
      cases hns : execNodes vd data ns with
      | error e => rfl
      | ok a =>
        dsimp only
        cases hys : execNodes vd data ys with
        | error e => rfl
        | ok b => simp [List.append_assoc]

theorem fits_parse_exec (pf : Registry) (vd : Validators) (data : Ctx) (L R : Nat)
    (hL : 0 < L) {items : List (Str × Seg)} {cur final : Str}
    (hfits : Fits pf vd data items cur final) :
    ∀ o prev : Nat, ((prev = 0 ∧ o = 0) ∨ (o = prev + R ∧ 0 < prev)) →
    ∃ ns2 out,
      parseNodes pf data L R (compileItems L R o items) ⟨cur, prev⟩ =
        .ok (ns2, ⟨final, endPrev L R o prev items⟩) ∧
      execNodes vd data ns2 = .ok out ∧ out ++ final = cur := by
  induction hfits with
  | nil fin =>
    intro o prev _
    exact ⟨[], [], by simp [compileItems, parseNodes, endPrev], by simp [execNodes], rfl⟩
  | call lit f sargs fn v as cur2 fin items hpf hext hvd hecho hrest ih =>
    intro o prev hop
    have hd : bytesToRead L R prev (o + lit.length + L) = (lit.length : Int) := by
      rcases hop with ⟨h1, h2⟩ | ⟨h1, h2⟩
      · subst h1; subst h2
        unfold bytesToRead
        rw [if_pos rfl]
        omega
      · have hne : prev ≠ 0 := by omega
        subst h1
        unfold bytesToRead
        rw [if_neg hne]
        omega
    have hstep := parseNode_identifier_eq pf data L R (o + lit.length + L) prev
      lit.length (lit ++ (as.flatten ++ cur2)) f (sargs.map .number) [] hd (by simp)
    rw [List.drop_left] at hstep
    simp only [hpf, hext] at hstep
    obtain ⟨ns2, out2, hp2, he2, hout2⟩ :=
      ih (o + lit.length + segLen L R (.call f sargs))
        (o + lit.length + L + (cmdString ⟨.identifier f :: sargs.map .number⟩).length)
        (Or.inr ⟨by simp only [segLen, segCmd]; omega, by omega⟩)
    refine ⟨(if lit = [] then [] else [Node.text o lit]) ++
        (.action (o + lit.length + L)
          (some ⟨[⟨.identifier f :: (as.map .str ++ sargs.map .number)⟩]⟩) :: ns2),
      lit ++ (as.flatten ++ out2), ?_, ?_, ?_⟩
    · simp only [compileItems, segCmd]
      apply parseNodes_textOpt_ok
      simp only [parseNodes, hstep, hp2]
      rfl
    · apply execNodes_textOpt_ok
      simp only [execNodes, execNode, hvd, map_argValue_call, hecho, he2]
    · simp only [List.append_assoc, hout2]
  | fieldref lit path s cur2 fin items hfield hrest ih =>
    intro o prev hop
    have hd : bytesToRead L R prev (o + lit.length + L) = (lit.length : Int) := by
      rcases hop with ⟨h1, h2⟩ | ⟨h1, h2⟩
      · subst h1; subst h2
        unfold bytesToRead
        rw [if_pos rfl]
        omega
      · have hne : prev ≠ 0 := by omega
        subst h1
        unfold bytesToRead
        rw [if_neg hne]
        omega
    have hstep := parseNode_field_ok pf data L R (o + lit.length + L) prev
      lit.length (lit ++ (s ++ cur2)) path s [] [] hd (by simp) hfield (by simp)
    rw [List.drop_left, List.drop_left] at hstep
    obtain ⟨ns2, out2, hp2, he2, hout2⟩ :=
      ih (o + lit.length + segLen L R (.fieldref path))
        (o + lit.length + L + (cmdString ⟨[.field path]⟩).length)
        (Or.inr ⟨by simp only [segLen, segCmd]; omega, by omega⟩)
    refine ⟨(if lit = [] then [] else [Node.text o lit]) ++
        (.action (o + lit.length + L) (some ⟨[⟨[.field path]⟩]⟩) :: ns2),
      lit ++ (s ++ out2), ?_, ?_, ?_⟩
    · simp only [compileItems, segCmd]
      apply parseNodes_textOpt_ok
      simp only [parseNodes, hstep, hp2]
      rfl
    · apply execNodes_textOpt_ok
      simp only [execNodes, execNode, hfield, he2]
    · simp only [List.append_assoc, hout2]

/-- C1 (amended): for a template whose compiled node positions reflect the
source layout, when the input's literal spans equal the template's literal
node texts, every extractor returns exactly the raw strings whose
concatenation it consumed, and every accepting validator echoes the
extracted string(s), `Parse` succeeds and `Execute` against the same
context reproduces the input byte for byte, for any number of placeholders
and field references. -/
theorem round_trip (pf : Registry) (vd : Validators) (data : Ctx) (L R : Nat)
    (hL : 0 < L) (ts : TSpec) (cur : Str) (ns0 : List Node)
    (hfits : Fits pf vd data ts.items cur ts.trail) :
    ∃ tx, Parse ⟨ns0, some cur, pf, vd, L, R⟩ (compile L R ts) data = .ok tx ∧
      Execute tx data = .ok cur := by
  obtain ⟨ns2, out, hp, he, hout⟩ :=
    fits_parse_exec pf vd data L R hL hfits 0 0 (Or.inl ⟨rfl, rfl⟩)
  have htrail : parseNodes pf data L R
      (if ts.trail = [] then [] else [Node.text (itemsLen L R ts.items) ts.trail])
      ⟨ts.trail, endPrev L R 0 0 ts.items⟩ =
      .ok ((if ts.trail = [] then [] else [Node.text (itemsLen L R ts.items) ts.trail]),
           ⟨ts.trail, endPrev L R 0 0 ts.items⟩) := by
    by_cases h : ts.trail = [] <;> simp [h, parseNodes, parseNode]
  have htrailx : execNodes vd data
      (if ts.trail = [] then [] else [Node.text (itemsLen L R ts.items) ts.trail]) =
      .ok ts.trail := by
    by_cases h : ts.trail = [] <;> simp [h, execNodes, execNode]
  refine ⟨⟨ns2 ++
      (if ts.trail = [] then [] else [Node.text (itemsLen L R ts.items) ts.trail]),
      some ts.trail, pf, vd, L, R⟩, ?_, ?_⟩
  · simp only [Parse, compile, parseNodes_append, hp, htrail]
  · simp only [Execute, execNodes_append, he, htrailx, hout]

/-- C1 counterexample: as claimed — quantifying over every template,
registry and input on which `Parse` succeeds with all validators accepting
— the round-trip fails: on the pure-literal template `x` with input `y`
the `src/templatex.go` engine (which never compares literal spans to the
input) parses successfully, there is no validator to object, and the
pipeline outputs `x`, which is not the input `y`. -/
theorem round_trip_counterexample :
    pipeline ⟨[], some "y".toList, reg0, vd0, 2, 2⟩ [Node.text 0 "x".toList] data0 =
      some "x".toList ∧ "x".toList ≠ "y".toList :=
  ⟨by decide, by decide⟩

/-- C1 witness: the amended round-trip evaluated on the concrete template
`a: {{f}}!` and input `a: X!`. -/
theorem round_trip_witness :
    ((0 : Nat) < 2 ∧
     Fits regT vdT data0 [("a: ".toList, .call "f".toList [])]
       ("a: ".toList ++ (["X".toList].flatten ++ "!".toList)) "!".toList) ∧
    ∃ tx, Parse ⟨[], some ("a: ".toList ++ (["X".toList].flatten ++ "!".toList)),
        regT, vdT, 2, 2⟩
        (compile 2 2 ⟨[("a: ".toList, .call "f".toList [])], "!".toList⟩) data0 =
      .ok tx ∧
      Execute tx data0 =
        .ok ("a: ".toList ++ (["X".toList].flatten ++ "!".toList)) := by
  have hf : Fits regT vdT data0 [("a: ".toList, .call "f".toList [])]
      ("a: ".toList ++ (["X".toList].flatten ++ "!".toList)) "!".toList :=
    Fits.call "a: ".toList "f".toList [] extTake1 vdEcho ["X".toList] "!".toList
      "!".toList [] rfl (by decide) rfl (by decide) (Fits.nil "!".toList)
  exact ⟨⟨by decide, hf⟩,
    round_trip regT vdT data0 2 2 (by decide)
      ⟨[("a: ".toList, .call "f".toList [])], "!".toList⟩
      ("a: ".toList ++ (["X".toList].flatten ++ "!".toList)) [] hf⟩

end Templatex

